import Mathlib

/-!
Shallow embedding of the "Life Intel" life-logging application.

Server side (`server` entry file): the day-keyed upsert stores behind the
`POST /api/body`, `/api/mind`, `/api/finance` and `/api/discipline`
handlers, which feed SQLite `INSERT ... ON CONFLICT ... DO UPDATE`
statements through better-sqlite3.

Client side (`src/App.tsx`): the score, correlation and insight logic of
`DashboardView`, over the typed records of `src/types.ts`.

The helpers `calculateScore` and `getCorrelation` live in `src/lib/utils`,
which is not part of the repository snapshot; they are modelled from the
specification (marked `Modelled from the spec` below).
-/

namespace LifeIntel

/-- JavaScript `Math.round`: rounds half toward positive infinity. -/
def jsRound (q : ℚ) : ℤ := ⌊q + 1/2⌋

/-- JavaScript `Math.round` on a real argument (used on correlation
coefficients, which involve square roots). -/
noncomputable def jsRoundR (x : ℝ) : ℤ := ⌊x + 1/2⌋

/-- A JSON value as delivered by `express.json()` to a route handler.
`undef` stands for a field missing from the request body. -/
inductive JVal where
  | num (q : ℚ)
  | str (s : String)
  | bool (b : Bool)
  | null
  | undef
  deriving DecidableEq

/-- JavaScript truthiness, as used by `training_done ? 1 : 0`. -/
def JVal.truthy : JVal → Bool
  | .num q => q != 0
  | .str s => s != ""
  | .bool b => b
  | .null => false
  | .undef => false

/-- A value as stored by SQLite (the storage classes this schema uses). -/
inductive SVal where
  | num (q : ℚ)
  | str (s : String)
  | null
  deriving DecidableEq

/-- better-sqlite3 parameter binding: numbers, strings and null bind;
booleans and `undefined` (a missing JSON field) raise a TypeError, which
aborts the statement before anything is written. -/
def bindVal : JVal → Except String SVal
  | .num q => .ok (.num q)
  | .str s => .ok (.str s)
  | .null => .ok .null
  | .bool _ => .error "TypeError: cannot bind a boolean"
  | .undef => .error "TypeError: cannot bind undefined"

/-- `INSERT ... ON CONFLICT(key) DO UPDATE SET <all non-key fields>`:
if a row with the natural key exists, all its non-key fields are
overwritten in place; otherwise a new row is appended. -/
def upsertKV {κ α : Type} [DecidableEq κ] (s : List (κ × α)) (k : κ) (v : α) :
    List (κ × α) :=
  if s.any (fun p => decide (p.1 = k)) then
    s.map (fun p => if p.1 = k then (k, v) else p)
  else s ++ [(k, v)]

/-- Number of rows of a store carrying the natural key `k`. -/
def keyCount {κ α : Type} [DecidableEq κ] (k : κ) : List (κ × α) → Nat
  | [] => 0
  | p :: s => (if p.1 = k then 1 else 0) + keyCount k s

/-- The JSON body destructured by `POST /api/body`. -/
structure BodyReq where
  date : JVal
  sleep_hours : JVal
  sleep_quality : JVal
  training_done : JVal
  training_type : JVal
  energy_level : JVal
  activity_level : JVal
  deriving DecidableEq

/-- The non-key columns of `body_logs` (all of them are overwritten on a
`date` conflict). -/
structure BodyVals where
  sleep_hours : SVal
  sleep_quality : SVal
  training_done : SVal
  training_type : SVal
  energy_level : SVal
  activity_level : SVal
  deriving DecidableEq

/-- The non-key parameters bound by the body statement, in source order;
`training_done` is passed as `training_done ? 1 : 0` and hence never
fails to bind. The leftmost unbindable value raises. -/
def bodyVals (r : BodyReq) : Except String BodyVals :=
  match bindVal r.sleep_hours, bindVal r.sleep_quality, bindVal r.training_type,
      bindVal r.energy_level, bindVal r.activity_level with
  | .ok sh, .ok sq, .ok tt, .ok el, .ok al =>
      .ok ⟨sh, sq, SVal.num (if r.training_done.truthy then 1 else 0), tt, el, al⟩
  | .error e, _, _, _, _ => .error e
  | _, .error e, _, _, _ => .error e
  | _, _, .error e, _, _ => .error e
  | _, _, _, .error e, _ => .error e
  | _, _, _, _, .error e => .error e

/-- `POST /api/body`: destructure the request body and run the upsert
keyed on `date`. No field validation is performed. -/
def bodyPost (s : List (SVal × BodyVals)) (r : BodyReq) :
    Except String (List (SVal × BodyVals)) :=
  match bindVal r.date, bodyVals r with
  | .ok k, .ok v => .ok (upsertKV s k v)
  | .error e, _ => .error e
  | _, .error e => .error e

/-- `POST /api/body` as the HTTP layer observes it: a thrown binding
error produces a 500 response and leaves the store untouched. -/
def bodyPostRun (s : List (SVal × BodyVals)) (r : BodyReq) :
    List (SVal × BodyVals) :=
  match bodyPost s r with
  | .ok s2 => s2
  | .error _ => s

/-- A sequence of body submissions applied to a store. -/
def bodyApply (rs : List BodyReq) (s : List (SVal × BodyVals)) :
    List (SVal × BodyVals) :=
  rs.foldl bodyPostRun s

/-- The JSON body destructured by `POST /api/mind`. -/
structure MindReq where
  date : JVal
  mood : JVal
  anxiety : JVal
  stress : JVal
  focus : JVal
  journal : JVal
  deriving DecidableEq

/-- The non-key columns of `mind_logs`. -/
structure MindVals where
  mood : SVal
  anxiety : SVal
  stress : SVal
  focus : SVal
  journal : SVal
  deriving DecidableEq

def mindVals (r : MindReq) : Except String MindVals :=
  match bindVal r.mood, bindVal r.anxiety, bindVal r.stress,
      bindVal r.focus, bindVal r.journal with
  | .ok mo, .ok an, .ok st, .ok fo, .ok jo => .ok ⟨mo, an, st, fo, jo⟩
  | .error e, _, _, _, _ => .error e
  | _, .error e, _, _, _ => .error e
  | _, _, .error e, _, _ => .error e
  | _, _, _, .error e, _ => .error e
  | _, _, _, _, .error e => .error e

/-- `POST /api/mind`: upsert keyed on `date`. -/
def mindPost (s : List (SVal × MindVals)) (r : MindReq) :
    Except String (List (SVal × MindVals)) :=
  match bindVal r.date, mindVals r with
  | .ok k, .ok v => .ok (upsertKV s k v)
  | .error e, _ => .error e
  | _, .error e => .error e

/-- The JSON body destructured by `POST /api/finance`. -/
structure FinReq where
  date : JVal
  income : JVal
  expenses : JVal
  debts : JVal
  installments : JVal
  deriving DecidableEq

/-- The non-key columns of `finance_logs`. -/
structure FinVals where
  income : SVal
  expenses : SVal
  debts : SVal
  installments : SVal
  deriving DecidableEq

def finVals (r : FinReq) : Except String FinVals :=
  match bindVal r.income, bindVal r.expenses, bindVal r.debts,
      bindVal r.installments with
  | .ok inc, .ok ex, .ok de, .ok ins => .ok ⟨inc, ex, de, ins⟩
  | .error e, _, _, _ => .error e
  | _, .error e, _, _ => .error e
  | _, _, .error e, _ => .error e
  | _, _, _, .error e => .error e

/-- `POST /api/finance`: upsert keyed on `date`. -/
def finPost (s : List (SVal × FinVals)) (r : FinReq) :
    Except String (List (SVal × FinVals)) :=
  match bindVal r.date, finVals r with
  | .ok k, .ok v => .ok (upsertKV s k v)
  | .error e, _ => .error e
  | _, .error e => .error e

/-- A row of the `projects` table (`id` is the AUTOINCREMENT rowid). -/
structure ProjectRow where
  id : ℤ
  name : SVal
  weekly_goal_hours : SVal
  created_at : SVal

/-- The JSON body destructured by `POST /api/discipline`. -/
structure DiscReq where
  date : JVal
  project_id : JVal
  minutes_invested : JVal
  focus_level : JVal
  deriving DecidableEq

/-- The non-key columns of `discipline_logs`. -/
structure DiscVals where
  minutes_invested : SVal
  focus_level : SVal
  deriving DecidableEq

def discVals (r : DiscReq) : Except String DiscVals :=
  match bindVal r.minutes_invested, bindVal r.focus_level with
  | .ok mi, .ok fl => .ok ⟨mi, fl⟩
  | .error e, _ => .error e
  | _, .error e => .error e

/-- `POST /api/discipline`: upsert keyed on `(date, project_id)`. The
handler runs the statement directly; it never reads the `projects`
table. -/
def disciplinePost (s : List ((SVal × SVal) × DiscVals)) (r : DiscReq) :
    Except String (List ((SVal × SVal) × DiscVals)) :=
  match bindVal r.date, bindVal r.project_id, discVals r with
  | .ok d, .ok pid, .ok v => .ok (upsertKV s (d, pid) v)
  | .error e, _, _ => .error e
  | _, .error e, _ => .error e
  | _, _, .error e => .error e

/-- `BodyLog` of `src/types.ts`, as consumed by the dashboard. -/
structure BodyLog where
  date : String
  sleep_hours : ℚ
  sleep_quality : ℚ
  training_done : ℚ
  training_type : String
  energy_level : ℚ
  activity_level : ℚ
  deriving DecidableEq

/-- `MindLog` of `src/types.ts`. -/
structure MindLog where
  date : String
  mood : ℚ
  anxiety : ℚ
  stress : ℚ
  focus : ℚ
  journal : String
  deriving DecidableEq

/-- `FinanceLog` of `src/types.ts`. -/
structure FinanceLog where
  date : String
  income : ℚ
  expenses : ℚ
  debts : ℚ
  installments : ℚ
  deriving DecidableEq

/-- One row of the discipline per-date aggregate of `/api/dashboard`. -/
structure DiscAgg where
  date : String
  total_minutes : ℚ
  avg_focus : ℚ
  deriving DecidableEq

/-- The `/api/dashboard` response. Each list is date-descending (most
recent first), as produced by the `ORDER BY date DESC` queries. -/
structure DashboardData where
  body : List BodyLog
  mind : List MindLog
  finance : List FinanceLog
  discipline : List DiscAgg
  deriving DecidableEq

/-- Mean of a numeric series (rational data; `[]` gives `0/0 = 0`). -/
def meanQ (xs : List ℚ) : ℚ := xs.sum / xs.length

/-- Population covariance of two positionally paired series. -/
def covQ (xs ys : List ℚ) : ℚ :=
  (List.zipWith (fun a b => (a - meanQ xs) * (b - meanQ ys)) xs ys).sum / xs.length

/-- Population variance of a series. -/
def varQ (xs : List ℚ) : ℚ :=
  ((xs.map fun a => (a - meanQ xs) ^ 2).sum) / xs.length

/-- Modelled from the spec: `getCorrelation` (the Pearson correlation of
the absent `src/lib/utils`) — "covariance(A,B) / (stdev(A) * stdev(B))";
"if either series has zero variance, result is undefined". Pairs are
taken positionally. -/
noncomputable def pearson (xs ys : List ℚ) : Option ℝ :=
  if varQ xs = 0 ∨ varQ ys = 0 then none
  else some ((covQ xs ys : ℝ) / (Real.sqrt (varQ xs) * Real.sqrt (varQ ys)))

/-- Modelled from the spec: `calculateScore` of the absent
`src/lib/utils` — `normalize5to100(x) = round(x / 5 * 100)` clamped to
`[0, 100]`. -/
def calculateScore (x : ℚ) : ℤ := max 0 (min 100 (jsRound (x / 5 * 100)))

/-- Body score of `DashboardView` (latest body log, or 0 without one). -/
def bodyScore (d : DashboardData) : ℤ :=
  match d.body.head? with
  | some b => calculateScore
      ((b.sleep_quality + b.energy_level + (if b.training_done ≠ 0 then 5 else 0)) / 3)
  | none => 0

/-- Mind score of `DashboardView`. -/
def mindScore (d : DashboardData) : ℤ :=
  match d.mind.head? with
  | some m => calculateScore ((m.mood + (6 - m.anxiety) + (6 - m.stress) + m.focus) / 4)
  | none => 0

/-- `financialPressure` of `DashboardView`: the divisor is
`latestFinance.income || 1` — JavaScript falls back to `1` exactly when
`income` is `0` (falsy), not whenever `income < 1`. -/
def financialPressure (d : DashboardData) : ℤ :=
  match d.finance.head? with
  | some f => min 100 (jsRound (f.debts / (if f.income = 0 then 1 else f.income) * 100))
  | none => 0

/-- `financeScore = 100 - financialPressure`. -/
def financeScore (d : DashboardData) : ℤ := 100 - financialPressure d

/-- Discipline score: `min(100, round(total_minutes / 2.4))` of the first
(most recent) per-date aggregate row, or 0 when there is none. -/
def disciplineScore (l : List DiscAgg) : ℤ :=
  match l.head? with
  | some a => min 100 (jsRound (a.total_minutes / (12/5)))
  | none => 0

/-- Overall score: rounded mean of the four domain scores. -/
def overallScore (d : DashboardData) : ℤ :=
  jsRound (((bodyScore d + mindScore d + financeScore d
    + disciplineScore d.discipline : ℤ) : ℚ) / 4)

/-- Insight classification (`type` of the pushed insight objects). -/
inductive Polarity where
  | positive
  | negative
  deriving DecidableEq

/-- An element of the `insights` array of `DashboardView`. -/
structure Insight where
  title : String
  text : String
  type : Polarity
  deriving DecidableEq

/-- Template of the Sleep↔Focus insight text, with the embedded
`Math.round(corr * 100)` percentage. -/
def sleepFocusText (n : ℤ) : String :=
  "Sua qualidade de sono tem uma correlação de " ++ toString n
    ++ "% com seu nível de foco diário."

def debtAnxietyText : String :=
  "Detectamos que aumentos em suas dívidas estão diretamente ligados ao seu nível de ansiedade."

open Classical in
/-- Body of the first insight block of `DashboardView`: correlate
`data.body.map(b => b.sleep_hours)` with `data.mind.map(m => m.focus)`
and push when `Math.abs(corr) > 0.4` (an undefined correlation compares
false). -/
noncomputable def sleepFocusInsight (d : DashboardData) : List Insight :=
  match pearson (d.body.map fun b => b.sleep_hours) (d.mind.map fun m => m.focus) with
  | some r =>
      if |r| > 2/5 then
        [⟨"Padrão de Foco Detectado", sleepFocusText (jsRoundR (r * 100)),
          if r > 0 then .positive else .negative⟩]
      else []
  | none => []

open Classical in
/-- Body of the second insight block of `DashboardView`: correlate
`debts` with `anxiety` and push a negative insight when `corr > 0.3`. -/
noncomputable def debtAnxietyInsight (d : DashboardData) : List Insight :=
  match pearson (d.finance.map fun f => f.debts) (d.mind.map fun m => m.anxiety) with
  | some r =>
      if r > 3/10 then [⟨"Pressão Financeira", debtAnxietyText, .negative⟩]
      else []
  | none => []

/-- The `insights` array of `DashboardView`: the first block is guarded
by `data.body.length > 5 && data.discipline.length > 5` (discipline, not
mind, in the source), the second by
`data.finance.length > 5 && data.mind.length > 5`. -/
noncomputable def insights (d : DashboardData) : List Insight :=
  (if 5 < d.body.length ∧ 5 < d.discipline.length then sleepFocusInsight d else []) ++
  (if 5 < d.finance.length ∧ 5 < d.mind.length then debtAnxietyInsight d else [])

/-- Modelled from the spec: §4.4 rule 1 requires ">5 points in both body
and mind logs" for the Sleep↔Focus rule; the rule body is the one of the
source. Used to compare the spec's guard with the source's. -/
noncomputable def sleepFocusRuleSpec (d : DashboardData) : List Insight :=
  if 5 < d.body.length ∧ 5 < d.mind.length then sleepFocusInsight d else []

/-- The five scores assembled by `DashboardView`. -/
structure Scores where
  body : ℤ
  mind : ℤ
  finance : ℤ
  discipline : ℤ
  overall : ℤ
  deriving DecidableEq

/-- What `DashboardView` renders: the loading spinner (no data object
yet), the explicit empty/placeholder state, or the populated dashboard. -/
inductive ViewResult where
  | loading
  | emptyState
  | dashboard (scores : Scores) (ins : List Insight)

/-- `DashboardView`: with a data object present, render the placeholder
when all four domains are empty (`hasData` false), else the populated
dashboard. -/
noncomputable def dashboardView (data : Option DashboardData) : ViewResult :=
  match data with
  | none => .loading
  | some d =>
      if 0 < d.body.length ∨ 0 < d.mind.length ∨ 0 < d.finance.length
          ∨ 0 < d.discipline.length then
        .dashboard
          ⟨bodyScore d, mindScore d, financeScore d,
            disciplineScore d.discipline, overallScore d⟩
          (insights d)
      else .emptyState

/-! ### Store lemmas -/

lemma keyCount_replace {κ α : Type} [DecidableEq κ] (s : List (κ × α)) (k : κ) (v : α) :
    keyCount k (s.map fun p => if p.1 = k then (k, v) else p) = keyCount k s := by
  induction s with
  | nil => rfl
  | cons p s ih =>
    by_cases h : p.1 = k
    · simp [keyCount, h, ih]
    · simp [keyCount, h, ih]

lemma keyCount_append {κ α : Type} [DecidableEq κ] (s t : List (κ × α)) (k : κ) :
    keyCount k (s ++ t) = keyCount k s + keyCount k t := by
  induction s with
  | nil => simp [keyCount]
  | cons p s ih => simp [keyCount, ih]; omega

lemma keyCount_zero {κ α : Type} [DecidableEq κ] {s : List (κ × α)} {k : κ}
    (h : ∀ p ∈ s, p.1 ≠ k) : keyCount k s = 0 := by
  induction s with
  | nil => rfl
  | cons p s ih =>
    rw [keyCount, if_neg (h p (by simp)), ih fun q hq => h q (by simp [hq])]

lemma keyCount_pos {κ α : Type} [DecidableEq κ] {s : List (κ × α)} {k : κ} {p : κ × α}
    (hp : p ∈ s) (hk : p.1 = k) : 1 ≤ keyCount k s := by
  induction s with
  | nil => cases hp
  | cons q s ih =>
    rcases List.mem_cons.mp hp with rfl | h
    · rw [keyCount, if_pos hk]; omega
    · have := ih h; rw [keyCount]; omega

/-- After an upsert whose key occurred at most once, it occurs exactly
once: no duplicate row is ever created. -/
lemma upsertKV_keyCount {κ α : Type} [DecidableEq κ] (s : List (κ × α)) (k : κ) (v : α)
    (h : keyCount k s ≤ 1) : keyCount k (upsertKV s k v) = 1 := by
  unfold upsertKV
  by_cases hany : s.any (fun p => decide (p.1 = k)) = true
  · rw [if_pos hany, keyCount_replace]
    obtain ⟨p, hp, hk⟩ := List.any_eq_true.mp hany
    have := keyCount_pos hp (of_decide_eq_true hk)
    omega
  · rw [if_neg hany, keyCount_append,
      keyCount_zero fun q hq hqk =>
        hany (List.any_eq_true.mpr ⟨q, hq, by simp [hqk]⟩)]
    simp [keyCount]

/-- Every row of the post-upsert store carrying the upserted key holds
exactly the upserted payload (last write wins, no partial write). -/
lemma upsertKV_lookup {κ α : Type} [DecidableEq κ] (s : List (κ × α)) (k : κ) (v : α) :
    ∀ p ∈ upsertKV s k v, p.1 = k → p.2 = v := by
  intro p hp hk
  unfold upsertKV at hp
  by_cases hany : s.any (fun p => decide (p.1 = k)) = true
  · rw [if_pos hany] at hp
    obtain ⟨q, _, rfl⟩ := List.mem_map.mp hp
    by_cases h : q.1 = k
    · rw [if_pos h]
    · rw [if_neg h] at hk ⊢; exact absurd hk h
  · rw [if_neg hany] at hp
    rcases List.mem_append.mp hp with h | h
    · exact absurd (List.any_eq_true.mpr ⟨p, h, by simp [hk]⟩) hany
    · rw [List.mem_singleton.mp h]

/-- The upserted pair is present in the post-upsert store. -/
lemma upsertKV_mem {κ α : Type} [DecidableEq κ] (s : List (κ × α)) (k : κ) (v : α) :
    (k, v) ∈ upsertKV s k v := by
  unfold upsertKV
  by_cases hany : s.any (fun p => decide (p.1 = k)) = true
  · rw [if_pos hany]
    obtain ⟨q, hq, hk⟩ := List.any_eq_true.mp hany
    exact List.mem_map.mpr ⟨q, hq, by rw [if_pos (of_decide_eq_true hk)]⟩
  · rw [if_neg hany]; simp

/-- An upsert preserves any property of the stored payloads that the new
payload also has. -/
lemma upsertKV_forall {κ α : Type} [DecidableEq κ] {P : α → Prop}
    {s : List (κ × α)} {k : κ} {v : α}
    (hs : ∀ p ∈ s, P p.2) (hv : P v) : ∀ p ∈ upsertKV s k v, P p.2 := by
  intro p hp
  unfold upsertKV at hp
  by_cases hany : s.any (fun p => decide (p.1 = k)) = true
  · rw [if_pos hany] at hp
    obtain ⟨q, hq, rfl⟩ := List.mem_map.mp hp
    by_cases h : q.1 = k
    · rw [if_pos h]; exact hv
    · rw [if_neg h]; exact hs q hq
  · rw [if_neg hany] at hp
    rcases List.mem_append.mp hp with h | h
    · exact hs p h
    · rw [List.mem_singleton.mp h]; exact hv

/-- Successful `POST /api/body` decomposed: the bound key and payload
exist and the result is exactly the upsert. -/
lemma bodyPost_ok {s s₂ : List (SVal × BodyVals)} {r : BodyReq}
    (h : bodyPost s r = .ok s₂) :
    ∃ k v, bindVal r.date = .ok k ∧ bodyVals r = .ok v ∧ s₂ = upsertKV s k v := by
  unfold bodyPost at h
  rcases hk : bindVal r.date with e | k <;> rw [hk] at h
  · simp at h
  · rcases hv : bodyVals r with e | v <;> rw [hv] at h
    · simp at h
    · exact ⟨k, v, rfl, rfl, by simpa using h.symm⟩

/-! ### Correlation lemmas -/

lemma range_sum_getD (l : List ℚ) :
    ∑ i ∈ Finset.range l.length, l.getD i 0 = l.sum := by
  induction l with
  | nil => simp
  | cons a l ih =>
    rw [List.length_cons, Finset.sum_range_succ']
    simp only [List.getD_cons_succ, List.getD_cons_zero]
    rw [ih, List.sum_cons, add_comm]

lemma range_sum_map (l : List ℚ) (f : ℚ → ℚ) :
    (l.map f).sum = ∑ i ∈ Finset.range l.length, f (l.getD i 0) := by
  rw [← range_sum_getD (l.map f), List.length_map]
  refine Finset.sum_congr rfl fun i hi => ?_
  have hi' : i < l.length := Finset.mem_range.mp hi
  rw [List.getD_eq_getElem _ _ (by simpa using hi'), List.getD_eq_getElem _ _ hi',
    List.getElem_map]

lemma range_sum_zipWith (xs ys : List ℚ) (h : xs.length = ys.length) :
    (List.zipWith (· * ·) xs ys).sum
      = ∑ i ∈ Finset.range xs.length, xs.getD i 0 * ys.getD i 0 := by
  have hlen : (List.zipWith (· * ·) xs ys).length = xs.length := by
    rw [List.length_zipWith, ← h, Nat.min_self]
  rw [← range_sum_getD (List.zipWith (· * ·) xs ys), hlen]
  refine Finset.sum_congr rfl fun i hi => ?_
  have hx : i < xs.length := Finset.mem_range.mp hi
  have hy : i < ys.length := h ▸ hx
  rw [List.getD_eq_getElem _ _ (hlen ▸ hx), List.getD_eq_getElem _ _ hx,
    List.getD_eq_getElem _ _ hy, List.getElem_zipWith]

/-- Cauchy–Schwarz for positionally paired rational series. -/
lemma list_cauchy (xs ys : List ℚ) (h : xs.length = ys.length) :
    ((List.zipWith (· * ·) xs ys).sum) ^ 2
      ≤ (xs.map (· ^ 2)).sum * (ys.map (· ^ 2)).sum := by
  rw [range_sum_zipWith xs ys h, range_sum_map xs, range_sum_map ys, ← h]
  exact Finset.sum_mul_sq_le_sq_mul_sq _ _ _

lemma zipWith_map_both (f g : ℚ → ℚ) :
    ∀ xs ys : List ℚ, List.zipWith (fun a b => f a * g b) xs ys
      = List.zipWith (· * ·) (xs.map f) (ys.map g)
  | [], _ => by simp
  | _ :: _, [] => by simp
  | x :: xs, y :: ys => by
    simp only [List.map_cons, List.zipWith_cons_cons]
    rw [zipWith_map_both f g xs ys]

lemma varQ_nonneg (xs : List ℚ) : 0 ≤ varQ xs := by
  unfold varQ
  refine div_nonneg (List.sum_nonneg fun x hx => ?_) (Nat.cast_nonneg _)
  obtain ⟨a, _, rfl⟩ := List.mem_map.mp hx
  positivity

lemma covQ_sq_le_var_mul_var (xs ys : List ℚ) (h : xs.length = ys.length) :
    covQ xs ys ^ 2 ≤ varQ xs * varQ ys := by
  unfold covQ varQ
  rw [div_pow, div_mul_div_comm, ← h, ← pow_two]
  by_cases hn : ((xs.length : ℚ)) = 0
  · rw [hn]; norm_num
  · have hn2 : (0:ℚ) < (xs.length : ℚ) ^ 2 :=
      pow_pos (lt_of_le_of_ne (Nat.cast_nonneg _) (Ne.symm hn)) 2
    rw [div_le_div_iff₀ hn2 hn2]
    have hz := zipWith_map_both (· - meanQ xs) (· - meanQ ys) xs ys
    have hcs := list_cauchy (xs.map (· - meanQ xs)) (ys.map (· - meanQ ys))
      (by simp [h])
    rw [← hz] at hcs
    simp only [List.map_map, Function.comp] at hcs
    exact mul_le_mul_of_nonneg_right hcs (le_of_lt hn2)

lemma zipWith_self (f : ℚ → ℚ → ℚ) (g : ℚ → ℚ) (hfg : ∀ a, f a a = g a) :
    ∀ xs : List ℚ, List.zipWith f xs xs = xs.map g
  | [] => rfl
  | x :: xs => by
    rw [List.zipWith_cons_cons, hfg, List.map_cons, zipWith_self f g hfg xs]

lemma covQ_self (xs : List ℚ) : covQ xs xs = varQ xs := by
  unfold covQ varQ
  rw [zipWith_self (fun a b => (a - meanQ xs) * (b - meanQ xs))
    (fun a => (a - meanQ xs) ^ 2) (fun a => (pow_two _).symm) xs]

/-- Perfect positive correlation of a series with itself (nonzero
variance). -/
lemma pearson_self {xs : List ℚ} (h : varQ xs ≠ 0) : pearson xs xs = some 1 := by
  unfold pearson
  rw [if_neg (by simp [h]), covQ_self]
  refine congrArg some ?_
  rw [Real.mul_self_sqrt (by exact_mod_cast varQ_nonneg xs)]
  exact div_self (by exact_mod_cast h)

/-- Pearson coefficients are either undefined or lie in `[-1, 1]`. -/
lemma pearson_bound (xs ys : List ℚ) (h : xs.length = ys.length) :
    pearson xs ys = none ∨ ∃ r, pearson xs ys = some r ∧ -1 ≤ r ∧ r ≤ 1 := by
  unfold pearson
  by_cases hv : varQ xs = 0 ∨ varQ ys = 0
  · exact Or.inl (if_pos hv)
  · right
    rw [if_neg hv]
    push_neg at hv
    have hqx : 0 < varQ xs := lt_of_le_of_ne (varQ_nonneg xs) (Ne.symm hv.1)
    have hqy : 0 < varQ ys := lt_of_le_of_ne (varQ_nonneg ys) (Ne.symm hv.2)
    have hx : (0:ℝ) < ((varQ xs : ℚ) : ℝ) := by exact_mod_cast hqx
    have hy : (0:ℝ) < ((varQ ys : ℚ) : ℝ) := by exact_mod_cast hqy
    have hab : Real.sqrt ((varQ xs : ℚ) : ℝ) * Real.sqrt ((varQ ys : ℚ) : ℝ)
        = Real.sqrt (((varQ xs : ℚ) : ℝ) * ((varQ ys : ℚ) : ℝ)) :=
      (Real.sqrt_mul hx.le _).symm
    have hcs : (((covQ xs ys : ℚ) : ℝ)) ^ 2
        ≤ ((varQ xs : ℚ) : ℝ) * ((varQ ys : ℚ) : ℝ) := by
      exact_mod_cast covQ_sq_le_var_mul_var xs ys h
    have habs : |((covQ xs ys : ℚ) : ℝ)|
        ≤ Real.sqrt (((varQ xs : ℚ) : ℝ) * ((varQ ys : ℚ) : ℝ)) := by
      rw [← Real.sqrt_sq_eq_abs]
      exact Real.sqrt_le_sqrt hcs
    have hpos : 0 < Real.sqrt (((varQ xs : ℚ) : ℝ) * ((varQ ys : ℚ) : ℝ)) :=
      Real.sqrt_pos.mpr (mul_pos hx hy)
    have hd : 0 < Real.sqrt ((varQ xs : ℚ) : ℝ) * Real.sqrt ((varQ ys : ℚ) : ℝ) := by
      rw [hab]; exact hpos
    refine ⟨_, rfl, abs_le.mp ?_⟩
    rw [abs_div, abs_of_pos hd, hab]
    exact (div_le_one hpos).mpr habs

/-! ### Handler lemmas -/

/-- Successful `POST /api/mind` decomposed. -/
lemma mindPost_ok {s s₂ : List (SVal × MindVals)} {r : MindReq}
    (h : mindPost s r = .ok s₂) :
    ∃ k v, bindVal r.date = .ok k ∧ mindVals r = .ok v ∧ s₂ = upsertKV s k v := by
  unfold mindPost at h
  rcases hk : bindVal r.date with e | k <;> rw [hk] at h
  · simp at h
  · rcases hv : mindVals r with e | v <;> rw [hv] at h
    · simp at h
    · exact ⟨k, v, rfl, rfl, by simpa using h.symm⟩

/-- Successful `POST /api/finance` decomposed. -/
lemma finPost_ok {s s₂ : List (SVal × FinVals)} {r : FinReq}
    (h : finPost s r = .ok s₂) :
    ∃ k v, bindVal r.date = .ok k ∧ finVals r = .ok v ∧ s₂ = upsertKV s k v := by
  unfold finPost at h
  rcases hk : bindVal r.date with e | k <;> rw [hk] at h
  · simp at h
  · rcases hv : finVals r with e | v <;> rw [hv] at h
    · simp at h
    · exact ⟨k, v, rfl, rfl, by simpa using h.symm⟩

/-- The stored `training_done` column is always the `? 1 : 0` image of the
submitted value. -/
lemma bodyVals_training {r : BodyReq} {v : BodyVals} (h : bodyVals r = .ok v) :
    v.training_done = SVal.num (if r.training_done.truthy then 1 else 0) := by
  unfold bodyVals at h
  split at h
  · cases h; rfl
  all_goals exact absurd h (by simp)

/-- The submitted `sleep_hours` value is stored as bound, numeric or not. -/
lemma bodyVals_sleep {r : BodyReq} {v : BodyVals} {t : String}
    (hsh : r.sleep_hours = JVal.str t) (h : bodyVals r = .ok v) :
    v.sleep_hours = SVal.str t := by
  unfold bodyVals at h
  split at h
  case _ sh sq tt el al heq _ _ _ _ =>
    cases h
    rw [hsh] at heq
    cases heq
    rfl
  all_goals exact absurd h (by simp)

/-- Any store whose rows all have 0/1 `training_done` keeps that shape
under any sequence of body submissions. -/
lemma bodyApply_training (rs : List BodyReq) (s : List (SVal × BodyVals))
    (hs : ∀ p ∈ s, p.2.training_done = SVal.num 1 ∨ p.2.training_done = SVal.num 0) :
    ∀ p ∈ bodyApply rs s,
      p.2.training_done = SVal.num 1 ∨ p.2.training_done = SVal.num 0 := by
  induction rs generalizing s with
  | nil => exact hs
  | cons r rs ih =>
    refine ih (bodyPostRun s r) ?_
    unfold bodyPostRun
    rcases hp : bodyPost s r with e | s₂
    · exact hs
    · obtain ⟨k, v, _, hv, rfl⟩ := bodyPost_ok hp
      refine upsertKV_forall
        (P := fun w : BodyVals =>
          w.training_done = SVal.num 1 ∨ w.training_done = SVal.num 0)
        hs ?_
      show v.training_done = SVal.num 1 ∨ v.training_done = SVal.num 0
      rw [bodyVals_training hv]
      cases ht : r.training_done.truthy
      · right; rfl
      · left; rfl

/-! ### Insight block lemmas -/

/-- Every insight emitted by the Sleep↔Focus block carries its fixed
title. -/
lemma sleepFocus_titles (d : DashboardData) :
    ∀ i ∈ sleepFocusInsight d, i.title = "Padrão de Foco Detectado" := by
  intro i hi
  unfold sleepFocusInsight at hi
  rcases hp : pearson (d.body.map fun b => b.sleep_hours) (d.mind.map fun m => m.focus)
    with _ | r
  · simp [hp] at hi
  · simp only [hp] at hi
    split at hi
    · rw [List.mem_singleton.mp hi]
    · simp at hi

/-- Evaluation of the Sleep↔Focus block on a firing positive
correlation. -/
lemma sleepFocusInsight_eval {d : DashboardData} {r : ℝ}
    (h : pearson (d.body.map fun b => b.sleep_hours) (d.mind.map fun m => m.focus)
      = some r)
    (h4 : |r| > 2/5) (hpos : r > 0) :
    sleepFocusInsight d =
      [⟨"Padrão de Foco Detectado", sleepFocusText (jsRoundR (r * 100)),
        Polarity.positive⟩] := by
  unfold sleepFocusInsight
  simp only [h]
  rw [if_pos h4, if_pos hpos]

/-- The Debt↔Anxiety block fires exactly when the correlation is defined
and exceeds 0.3. -/
lemma debtAnxietyInsight_ne_nil_iff (d : DashboardData) :
    debtAnxietyInsight d ≠ [] ↔
      ∃ r, pearson (d.finance.map fun f => f.debts) (d.mind.map fun m => m.anxiety)
        = some r ∧ r > 3/10 := by
  unfold debtAnxietyInsight
  rcases hp : pearson (d.finance.map fun f => f.debts) (d.mind.map fun m => m.anxiety)
    with _ | r
  · simp [hp]
  · simp only [hp]
    by_cases h3 : r > 3/10
    · rw [if_pos h3]
      exact iff_of_true (by simp) ⟨r, rfl, h3⟩
    · rw [if_neg h3]
      refine iff_of_false (by simp) ?_
      rintro ⟨r', hr', h3'⟩
      cases Option.some.inj hr'
      exact h3 h3'

/-- Everything the Debt↔Anxiety block can emit is the one fixed negative
insight. -/
lemma debtAnxietyInsight_sub (d : DashboardData) :
    ∀ i ∈ debtAnxietyInsight d,
      i = ⟨"Pressão Financeira", debtAnxietyText, Polarity.negative⟩ := by
  intro i hi
  unfold debtAnxietyInsight at hi
  rcases hp : pearson (d.finance.map fun f => f.debts) (d.mind.map fun m => m.anxiety)
    with _ | r
  · simp [hp] at hi
  · simp only [hp] at hi
    split at hi
    · exact List.mem_singleton.mp hi
    · simp at hi

/-! ### Concrete data -/

/-- Six body logs (date-descending) with strictly increasing
`sleep_hours` by day. -/
def bodySix : List BodyLog :=
  [⟨"2024-01-06", 6, 3, 0, "", 3, 3⟩, ⟨"2024-01-05", 5, 3, 0, "", 3, 3⟩,
   ⟨"2024-01-04", 4, 3, 0, "", 3, 3⟩, ⟨"2024-01-03", 3, 3, 0, "", 3, 3⟩,
   ⟨"2024-01-02", 2, 3, 0, "", 3, 3⟩, ⟨"2024-01-01", 1, 3, 0, "", 3, 3⟩]

/-- Six mind logs (date-descending) with matching increasing `focus`. -/
def mindSix : List MindLog :=
  [⟨"2024-01-06", 3, 1, 1, 6, ""⟩, ⟨"2024-01-05", 3, 1, 1, 5, ""⟩,
   ⟨"2024-01-04", 3, 1, 1, 4, ""⟩, ⟨"2024-01-03", 3, 1, 1, 3, ""⟩,
   ⟨"2024-01-02", 3, 1, 1, 2, ""⟩, ⟨"2024-01-01", 3, 1, 1, 1, ""⟩]

/-- The end-to-end scenario of the spec: six body and six mind logs,
nothing else. -/
def dataSix : DashboardData := ⟨bodySix, mindSix, [], []⟩

/-- Six finance logs (date-descending). -/
def finSix : List FinanceLog :=
  [⟨"2024-01-06", 3000, 0, 600, 0⟩, ⟨"2024-01-05", 3000, 0, 500, 0⟩,
   ⟨"2024-01-04", 3000, 0, 400, 0⟩, ⟨"2024-01-03", 3000, 0, 300, 0⟩,
   ⟨"2024-01-02", 3000, 0, 200, 0⟩, ⟨"2024-01-01", 3000, 0, 100, 0⟩]

/-- Dataset with more than 5 finance and mind logs. -/
def dataNine : DashboardData := ⟨[], mindSix, finSix, []⟩

/-- Latest finance log with zero income and 500 debts. -/
def dFin0 : DashboardData := ⟨[], [], [⟨"2024-01-01", 0, 0, 500, 0⟩], []⟩

/-- Latest finance log with fractional income `1/2` and debts `2/5`. -/
def dFinHalf : DashboardData := ⟨[], [], [⟨"2024-01-01", 1/2, 0, 2/5, 0⟩], []⟩

/-- A first body submission for 2024-01-01. -/
def rBody1 : BodyReq :=
  ⟨.str "2024-01-01", .num 7, .num 3, .bool false, .str "", .num 3, .num 3⟩

/-- A second body submission for the same date with different values. -/
def rBody2 : BodyReq :=
  ⟨.str "2024-01-01", .num 8, .num 4, .bool true, .str "Academia", .num 4, .num 2⟩

/-- The stored payload of `rBody2`. -/
def vBody2 : BodyVals :=
  ⟨.num 8, .num 4, .num 1, .str "Academia", .num 4, .num 2⟩

/-- The store after `rBody1` hits an empty store. -/
def sBody1 : List (SVal × BodyVals) :=
  [(.str "2024-01-01", ⟨.num 7, .num 3, .num 0, .str "", .num 3, .num 3⟩)]

/-- A body submission whose `sleep_hours` is the non-numeric string
`"abc"`. -/
def rBodyBad : BodyReq :=
  ⟨.str "2024-01-02", .str "abc", .num 3, .bool false, .str "", .num 3, .num 3⟩

/-- The store after `rBodyBad` hits an empty store. -/
def sBodyBad : List (SVal × BodyVals) :=
  [(.str "2024-01-02", ⟨.str "abc", .num 3, .num 0, .str "", .num 3, .num 3⟩)]

/-- A discipline submission referencing project id 1. -/
def rDisc : DiscReq := ⟨.str "2024-01-07", .num 1, .num 60, .num 3⟩

/-! ### Claim theorems -/

/-- Claim C2: for every date key, a second BodyLog (likewise MindLog and
FinanceLog) upsert with the same date leaves exactly one stored record
for that date, whose non-key fields all equal the second submission's
values (last-write-wins); the key is unchanged and no duplicate row is
created. -/
theorem upsert_same_date_last_write_wins :
    (∀ (s s₁ : List (SVal × BodyVals)) (r₁ r₂ : BodyReq) (k : SVal) (v₂ : BodyVals),
      r₁.date = r₂.date → bindVal r₂.date = .ok k → bodyVals r₂ = .ok v₂ →
      keyCount k s ≤ 1 → bodyPost s r₁ = .ok s₁ →
      bodyPost s₁ r₂ = .ok (upsertKV s₁ k v₂) ∧
        keyCount k (upsertKV s₁ k v₂) = 1 ∧
        ∀ p ∈ upsertKV s₁ k v₂, p.1 = k → p.2 = v₂) ∧
    (∀ (s s₁ : List (SVal × MindVals)) (r₁ r₂ : MindReq) (k : SVal) (v₂ : MindVals),
      r₁.date = r₂.date → bindVal r₂.date = .ok k → mindVals r₂ = .ok v₂ →
      keyCount k s ≤ 1 → mindPost s r₁ = .ok s₁ →
      mindPost s₁ r₂ = .ok (upsertKV s₁ k v₂) ∧
        keyCount k (upsertKV s₁ k v₂) = 1 ∧
        ∀ p ∈ upsertKV s₁ k v₂, p.1 = k → p.2 = v₂) ∧
    (∀ (s s₁ : List (SVal × FinVals)) (r₁ r₂ : FinReq) (k : SVal) (v₂ : FinVals),
      r₁.date = r₂.date → bindVal r₂.date = .ok k → finVals r₂ = .ok v₂ →
      keyCount k s ≤ 1 → finPost s r₁ = .ok s₁ →
      finPost s₁ r₂ = .ok (upsertKV s₁ k v₂) ∧
        keyCount k (upsertKV s₁ k v₂) = 1 ∧
        ∀ p ∈ upsertKV s₁ k v₂, p.1 = k → p.2 = v₂) := by
  refine ⟨?_, ?_, ?_⟩
  · intro s s₁ r₁ r₂ k v₂ hdate hk₂ hv₂ hcount h₁
    obtain ⟨k₁, v₁, hk₁, hv₁, rfl⟩ := bodyPost_ok h₁
    rw [hdate] at hk₁
    cases Except.ok.inj (hk₁.symm.trans hk₂)
    refine ⟨?_, upsertKV_keyCount _ _ _ (upsertKV_keyCount s _ v₁ hcount).le,
      upsertKV_lookup _ _ _⟩
    unfold bodyPost
    rw [hk₂, hv₂]
  · intro s s₁ r₁ r₂ k v₂ hdate hk₂ hv₂ hcount h₁
    obtain ⟨k₁, v₁, hk₁, hv₁, rfl⟩ := mindPost_ok h₁
    rw [hdate] at hk₁
    cases Except.ok.inj (hk₁.symm.trans hk₂)
    refine ⟨?_, upsertKV_keyCount _ _ _ (upsertKV_keyCount s _ v₁ hcount).le,
      upsertKV_lookup _ _ _⟩
    unfold mindPost
    rw [hk₂, hv₂]
  · intro s s₁ r₁ r₂ k v₂ hdate hk₂ hv₂ hcount h₁
    obtain ⟨k₁, v₁, hk₁, hv₁, rfl⟩ := finPost_ok h₁
    rw [hdate] at hk₁
    cases Except.ok.inj (hk₁.symm.trans hk₂)
    refine ⟨?_, upsertKV_keyCount _ _ _ (upsertKV_keyCount s _ v₁ hcount).le,
      upsertKV_lookup _ _ _⟩
    unfold finPost
    rw [hk₂, hv₂]

/-- Witness for claim C2: the double upsert of `rBody1` then `rBody2` on
an empty store at the shared date, with `rBody2`'s values winning. -/
theorem upsert_same_date_last_write_wins_witness :
    bodyPost sBody1 rBody2 = .ok (upsertKV sBody1 (.str "2024-01-01") vBody2) ∧
      keyCount (SVal.str "2024-01-01") (upsertKV sBody1 (.str "2024-01-01") vBody2) = 1 ∧
      ∀ p ∈ upsertKV sBody1 (.str "2024-01-01") vBody2,
        p.1 = .str "2024-01-01" → p.2 = vBody2 :=
  upsert_same_date_last_write_wins.1 [] sBody1 rBody1 rBody2 _ vBody2 rfl rfl rfl
    (by simp [keyCount]) rfl

/-- Claim C3 (amended): a discipline write whose `project_id` references
no existing project is not rejected — the handler never consults the
`projects` table — and the log is stored under its `(date, project_id)`
key. -/
theorem disciplinePost_no_reference_check
    (projects : List ProjectRow) (s : List ((SVal × SVal) × DiscVals)) (r : DiscReq)
    (d pid : SVal) (v : DiscVals)
    (hd : bindVal r.date = .ok d) (hp : bindVal r.project_id = .ok pid)
    (hv : discVals r = .ok v)
    (_href : ∀ q ∈ projects, SVal.num (q.id : ℚ) ≠ pid) :
    disciplinePost s r = .ok (upsertKV s (d, pid) v) ∧
      ((d, pid), v) ∈ upsertKV s (d, pid) v := by
  refine ⟨?_, upsertKV_mem _ _ _⟩
  unfold disciplinePost
  rw [hd, hp, hv]

/-- Witness for claim C3 (amended): with no projects at all, `rDisc` is
accepted and stored. -/
theorem disciplinePost_no_reference_check_witness :
    disciplinePost [] rDisc
        = .ok (upsertKV [] (SVal.str "2024-01-07", SVal.num 1) ⟨SVal.num 60, SVal.num 3⟩) ∧
      ((SVal.str "2024-01-07", SVal.num 1), (⟨SVal.num 60, SVal.num 3⟩ : DiscVals))
        ∈ upsertKV ([] : List ((SVal × SVal) × DiscVals))
            (SVal.str "2024-01-07", SVal.num 1) ⟨SVal.num 60, SVal.num 3⟩ :=
  disciplinePost_no_reference_check [] [] rDisc _ _ _ rfl rfl rfl
    (fun q hq => absurd hq (List.not_mem_nil q))

/-- Counterexample to claim C3 as stated: with zero projects (so project
id 1 references nothing), the discipline write succeeds and the orphan
log is stored — it is not rejected with a ReferenceError. -/
theorem disciplinePost_orphan_stored :
    (∀ q ∈ ([] : List ProjectRow), SVal.num (q.id : ℚ) ≠ SVal.num 1) ∧
    disciplinePost [] rDisc
      = .ok [((SVal.str "2024-01-07", SVal.num 1), ⟨SVal.num 60, SVal.num 3⟩)] :=
  ⟨fun q hq => absurd hq (List.not_mem_nil q), rfl⟩

/-- Claim C5 (amended): no validation precedes the upsert — a body
submission whose required numeric field `sleep_hours` carries a
non-numeric string is accepted, the upsert runs, and the string value is
stored for the submitted date. -/
theorem bodyPost_accepts_non_numeric
    (s : List (SVal × BodyVals)) (r : BodyReq) (k : SVal) (v : BodyVals) (t : String)
    (hsh : r.sleep_hours = JVal.str t)
    (hk : bindVal r.date = .ok k) (hv : bodyVals r = .ok v) :
    bodyPost s r = .ok (upsertKV s k v) ∧ v.sleep_hours = SVal.str t ∧
      ∀ p ∈ upsertKV s k v, p.1 = k → p.2.sleep_hours = SVal.str t := by
  have hvs : v.sleep_hours = SVal.str t := bodyVals_sleep hsh hv
  refine ⟨?_, hvs, fun p hp hpk => by rw [upsertKV_lookup s k v p hp hpk, hvs]⟩
  unfold bodyPost
  rw [hk, hv]

/-- Witness for claim C5 (amended): `rBodyBad` (sleep_hours `"abc"`) is
accepted and its string value stored. -/
theorem bodyPost_accepts_non_numeric_witness :
    bodyPost [] rBodyBad
        = .ok (upsertKV [] (SVal.str "2024-01-02")
            ⟨.str "abc", .num 3, .num 0, .str "", .num 3, .num 3⟩) ∧
      (⟨.str "abc", .num 3, .num 0, .str "", .num 3, .num 3⟩ : BodyVals).sleep_hours
        = SVal.str "abc" ∧
      ∀ p ∈ upsertKV ([] : List (SVal × BodyVals)) (SVal.str "2024-01-02")
          (⟨.str "abc", .num 3, .num 0, .str "", .num 3, .num 3⟩ : BodyVals),
        p.1 = SVal.str "2024-01-02" → p.2.sleep_hours = SVal.str "abc" :=
  bodyPost_accepts_non_numeric [] rBodyBad _ _ "abc" rfl rfl rfl

/-- Counterexample to claim C5 as stated: the submission `rBodyBad` has a
non-numeric `sleep_hours`, yet it is not rejected — the handler answers
success and the store gains a record. -/
theorem bodyPost_non_numeric_not_rejected :
    rBodyBad.sleep_hours = JVal.str "abc" ∧
      bodyPost [] rBodyBad = .ok sBodyBad ∧ sBodyBad ≠ [] :=
  ⟨rfl, rfl, by simp [sBodyBad]⟩

/-- Claim C10: `training_done` is stored as the number 1 exactly when the
submitted value is truthy and 0 otherwise, so every stored BodyLog row —
and hence every row read back, including by the dashboard query — has a
numeric 0-or-1 `training_done`, whatever the input value. -/
theorem training_done_zero_or_one :
    (∀ (r : BodyReq) (v : BodyVals), bodyVals r = .ok v →
      v.training_done = SVal.num (if r.training_done.truthy then 1 else 0)) ∧
    ∀ (rs : List BodyReq) (p : SVal × BodyVals), p ∈ bodyApply rs [] →
      p.2.training_done = SVal.num 1 ∨ p.2.training_done = SVal.num 0 :=
  ⟨fun _ _ h => bodyVals_training h,
   fun rs p hp => bodyApply_training rs [] (by simp) p hp⟩

/-- Witness for claim C10: the single stored row after submitting
`rBody1` has a 0-or-1 numeric `training_done`. -/
theorem training_done_zero_or_one_witness :
    ((SVal.str "2024-01-01", (⟨.num 7, .num 3, .num 0, .str "", .num 3, .num 3⟩ : BodyVals))
        : SVal × BodyVals).2.training_done = SVal.num 1 ∨
      ((SVal.str "2024-01-01", (⟨.num 7, .num 3, .num 0, .str "", .num 3, .num 3⟩ : BodyVals))
        : SVal × BodyVals).2.training_done = SVal.num 0 :=
  training_done_zero_or_one.2 [rBody1] _ (List.mem_singleton_self _)

/-- Claim C4 (amended): the financial pressure formula
`min(100, round(debts / max(income, 1) * 100))` matches the code whenever
`income = 0` or `income ≥ 1` (the code divides by `income || 1`, which
differs from `max(income, 1)` for `0 < income < 1` and for negative
income); the finance score is always `100 - pressure`, and income 0 with
debts 500 clamps pressure to 100 and scores 0, with no division error. -/
theorem financialPressure_income_guard :
    (∀ (d : DashboardData) (f : FinanceLog), d.finance.head? = some f →
      f.income = 0 ∨ 1 ≤ f.income →
      financialPressure d = min 100 (jsRound (f.debts / max f.income 1 * 100))) ∧
    (∀ d : DashboardData, financeScore d = 100 - financialPressure d) ∧
    financialPressure dFin0 = 100 ∧ financeScore dFin0 = 0 := by
  refine ⟨?_, fun d => rfl, ?_, ?_⟩
  · intro d f hf hinc
    unfold financialPressure
    simp only [hf]
    rcases hinc with h0 | h1
    · rw [if_pos h0, h0]
      norm_num
    · rw [if_neg (ne_of_gt (lt_of_lt_of_le zero_lt_one h1)), max_eq_left h1]
  · norm_num [financialPressure, dFin0, jsRound]
  · norm_num [financeScore, financialPressure, dFin0, jsRound]

/-- Witness for claim C4 (amended): the zero-income finance log satisfies
the spec formula. -/
theorem financialPressure_income_guard_witness :
    financialPressure dFin0 = min 100 (jsRound ((500 : ℚ) / max 0 1 * 100)) := by
  have h := financialPressure_income_guard.1 dFin0
    ⟨"2024-01-01", 0, 0, 500, 0⟩ rfl (Or.inl rfl)
  simpa using h

/-- Counterexample to claim C4 as stated: with income `1/2` and debts
`2/5` the code computes pressure 80 (dividing by the truthy income
`1/2`), while the claimed `max(income, 1)` formula gives 40. -/
theorem financialPressure_income_guard_counterexample :
    financialPressure dFinHalf = 80 ∧
      min 100 (jsRound ((2/5 : ℚ) / max (1/2 : ℚ) 1 * 100)) = 40 ∧
      (80 : ℤ) ≠ 40 := by
  refine ⟨?_, ?_, by norm_num⟩
  · norm_num [financialPressure, dFinHalf, jsRound]
  · norm_num [jsRound]

/-- Claim C6: with zero logs in all four domains the dashboard renders
the explicit empty/placeholder state, which is distinct from any rendered
scores object — "nothing logged yet" is distinguishable from an all-zero
dashboard. -/
theorem dashboard_empty_state :
    (∀ d : DashboardData, d.body = [] → d.mind = [] → d.finance = [] →
      d.discipline = [] → dashboardView (some d) = ViewResult.emptyState) ∧
    ∀ (sc : Scores) (ins : List Insight),
      ViewResult.emptyState ≠ ViewResult.dashboard sc ins := by
  constructor
  · intro d hb hm hf hd
    have hcond : ¬(0 < d.body.length ∨ 0 < d.mind.length ∨ 0 < d.finance.length
        ∨ 0 < d.discipline.length) := by simp [hb, hm, hf, hd]
    exact if_neg hcond
  · intro sc ins h
    exact ViewResult.noConfusion h

/-- Witness for claim C6: the all-empty dashboard data renders the empty
state. -/
theorem dashboard_empty_state_witness :
    dashboardView (some ⟨[], [], [], []⟩) = ViewResult.emptyState :=
  dashboard_empty_state.1 ⟨[], [], [], []⟩ rfl rfl rfl rfl

/-- Claim C7: with at least one per-date aggregate the discipline score
is `min(100, round(total_minutes / 2.4))` of the most recent (head)
aggregate — 240, 120 and 0 minutes give 100, 50 and 0 — and without
discipline data the score is 0. -/
theorem disciplineScore_formula :
    (∀ (a : DiscAgg) (rest : List DiscAgg),
      disciplineScore (a :: rest) = min 100 (jsRound (a.total_minutes / (12/5)))) ∧
    disciplineScore [⟨"2024-01-01", 240, 3⟩] = 100 ∧
    disciplineScore [⟨"2024-01-01", 120, 3⟩] = 50 ∧
    disciplineScore [⟨"2024-01-01", 0, 3⟩] = 0 ∧
    disciplineScore [] = 0 := by
  refine ⟨fun a rest => rfl, ?_, ?_, ?_, rfl⟩
  · norm_num [disciplineScore, jsRound]
  · norm_num [disciplineScore, jsRound]
  · norm_num [disciplineScore, jsRound]

/-- Claim C8: for equal-length series, pearson is undefined or lies in
`[-1, 1]`; it is 1 on `[1,2,3]` with itself, -1 on `[1,2,3]` with
`[3,2,1]`, and undefined (not a division error) on the zero-variance
`[1,1,1]` against `[1,2,3]`. -/
theorem pearson_range_and_values :
    (∀ xs ys : List ℚ, xs.length = ys.length →
      pearson xs ys = none ∨ ∃ r, pearson xs ys = some r ∧ -1 ≤ r ∧ r ≤ 1) ∧
    pearson [1, 2, 3] [1, 2, 3] = some 1 ∧
    pearson [1, 2, 3] [3, 2, 1] = some (-1) ∧
    pearson [1, 1, 1] [1, 2, 3] = none := by
  refine ⟨pearson_bound, pearson_self (by norm_num [varQ, meanQ]), ?_, ?_⟩
  · unfold pearson
    have hv1 : varQ [1, 2, 3] = 2/3 := by norm_num [varQ, meanQ]
    have hv2 : varQ [3, 2, 1] = 2/3 := by norm_num [varQ, meanQ]
    have hc : covQ [1, 2, 3] [3, 2, 1] = -2/3 := by norm_num [covQ, meanQ]
    rw [if_neg (by rw [hv1, hv2]; norm_num), hv1, hv2, hc]
    refine congrArg some ?_
    rw [Real.mul_self_sqrt (by norm_num)]
    norm_num
  · unfold pearson
    rw [if_pos (Or.inl (by norm_num [varQ, meanQ]))]

/-- Witness for claim C8: the bound applied to the equal-length pair
`[1,2,3]`, `[1,2,3]`. -/
theorem pearson_range_and_values_witness :
    pearson [1, 2, 3] [1, 2, 3] = none ∨
      ∃ r, pearson [1, 2, 3] [1, 2, 3] = some r ∧ -1 ≤ r ∧ r ≤ 1 :=
  pearson_range_and_values.1 [1, 2, 3] [1, 2, 3] rfl

/-- Claim C1 (code bug): on the spec's end-to-end input — six body logs
with strictly increasing sleep hours, six mind logs with matching
increasing focus, and nothing else — the source emits no insight at all,
because its Sleep↔Focus block is guarded by
`data.discipline.length > 5` instead of `data.mind.length > 5`; the rule
with the spec's body-and-mind guard fires the positive insight with the
100% (≥ 40) correlation message. -/
theorem sleepFocus_guard_bug :
    insights dataSix = [] ∧
    sleepFocusRuleSpec dataSix =
      [⟨"Padrão de Foco Detectado", sleepFocusText 100, Polarity.positive⟩] := by
  have h1 : dataSix.body.map (fun b => b.sleep_hours) = [6, 5, 4, 3, 2, 1] := rfl
  have h2 : dataSix.mind.map (fun m => m.focus) = [6, 5, 4, 3, 2, 1] := rfl
  have hp : pearson (dataSix.body.map fun b => b.sleep_hours)
      (dataSix.mind.map fun m => m.focus) = some 1 := by
    rw [h1, h2]
    exact pearson_self (by norm_num [varQ, meanQ])
  constructor
  · unfold insights
    rw [if_neg (by simp [dataSix]), if_neg (by simp [dataSix])]
    rfl
  · unfold sleepFocusRuleSpec
    rw [if_pos ⟨by simp [dataSix, bodySix], by simp [dataSix, mindSix]⟩,
      sleepFocusInsight_eval hp (by norm_num) (by norm_num)]
    norm_num [jsRoundR]

/-- Claim C9: with more than 5 finance and more than 5 mind logs, the
Debt↔Anxiety rule emits its insight exactly when the correlation is
defined and exceeds 0.3 (zero or negative correlations never fire), and
every such insight is classified negative. -/
theorem debtAnxiety_rule (d : DashboardData) (hf : 5 < d.finance.length)
    (hm : 5 < d.mind.length) :
    ((∃ i ∈ insights d, i.title = "Pressão Financeira") ↔
      ∃ r, pearson (d.finance.map fun f => f.debts) (d.mind.map fun m => m.anxiety)
        = some r ∧ r > 3/10) ∧
    ∀ i ∈ insights d, i.title = "Pressão Financeira" →
      i.type = Polarity.negative := by
  have hins : insights d
      = (if 5 < d.body.length ∧ 5 < d.discipline.length then sleepFocusInsight d
          else []) ++ debtAnxietyInsight d := by
    unfold insights
    rw [if_pos (show 5 < d.finance.length ∧ 5 < d.mind.length from ⟨hf, hm⟩)]
  have hsf : ∀ i ∈ (if 5 < d.body.length ∧ 5 < d.discipline.length
      then sleepFocusInsight d else []), i.title = "Padrão de Foco Detectado" := by
    split
    · exact sleepFocus_titles d
    · simp
  constructor
  · constructor
    · rintro ⟨i, hi, ht⟩
      rw [hins] at hi
      rcases List.mem_append.mp hi with h | h
      · exact absurd (ht.symm.trans (hsf i h)) (by simp)
      · exact (debtAnxietyInsight_ne_nil_iff d).mp
          fun h0 => List.not_mem_nil i (h0 ▸ h)
    · rintro ⟨r, hp, h3⟩
      have hne : debtAnxietyInsight d ≠ [] :=
        (debtAnxietyInsight_ne_nil_iff d).mpr ⟨r, hp, h3⟩
      rcases hda : debtAnxietyInsight d with _ | ⟨i, rest⟩
      · exact absurd hda hne
      · have hmem : i ∈ debtAnxietyInsight d := by
          rw [hda]
          exact List.mem_cons_self _ _
        refine ⟨i, ?_, ?_⟩
        · rw [hins]
          exact List.mem_append.mpr (Or.inr hmem)
        · rw [debtAnxietyInsight_sub d i hmem]
  · intro i hi ht
    rw [hins] at hi
    rcases List.mem_append.mp hi with h | h
    · exact absurd (ht.symm.trans (hsf i h)) (by simp)
    · rw [debtAnxietyInsight_sub d i h]

/-- Witness for claim C9: the rule characterization on `dataNine` (six
finance and six mind logs). -/
theorem debtAnxiety_rule_witness :
    ((∃ i ∈ insights dataNine, i.title = "Pressão Financeira") ↔
      ∃ r, pearson (dataNine.finance.map fun f => f.debts)
          (dataNine.mind.map fun m => m.anxiety) = some r ∧ r > 3/10) ∧
    ∀ i ∈ insights dataNine, i.title = "Pressão Financeira" →
      i.type = Polarity.negative :=
  debtAnxiety_rule dataNine (by simp [dataNine, finSix]) (by simp [dataNine, mindSix])

end LifeIntel
